import Mathlib

/- Verification of the SPOT evaluation pipeline (reviewer / judge / metrics)
   against its specification.  The definitions below are a shallow embedding of
   the code in notebooks/run_eval_single.ipynb: pandas dataframes become lists
   of structures, Python ints become Nat/Int, float division becomes exact
   division in the rationals, and cell values that may be NaN / non-list become
   explicit sum types. -/

namespace SPOT

/-- A judge "match" object: a dict that optionally carries a "description"
    key (the code reads it with `m.get("description", "")`). -/
structure MatchObj where
  descriptionOpt : Option String
deriving DecidableEq, Repr

/-- The `matches` cell of a dataframe row as seen by `compute_all_metrics`:
    it may be a string (e.g. when the frame was re-read from CSV), an actual
    Python list of match objects (what the in-memory pipeline stores), or
    NaN (a paper absent from the judge output after the left merge). -/
inductive MCell
  | str (s : String)
  | lst (l : List MatchObj)
  | na
deriving DecidableEq, Repr

/-- A cell that is either a Python list of strings or NaN (used for the
    `match_descriptions` and `errors` columns). -/
inductive LCell
  | lst (l : List String)
  | na
deriving DecidableEq, Repr

/-- One row of the merged per-paper dataframe that `compute_all_metrics`
    consumes.  `error_annotations` models the `error_annotation` column
    (ground-truth error descriptions, always an actual list coming from the
    dataset merge). -/
structure MetricRow where
  pid : Nat
  parsed : Bool
  is_error : Bool
  errors : LCell
  error_annotations : List String
  matchesCol : MCell
  match_descriptions : LCell
deriving DecidableEq, Repr

/-- Normalisation of the `matches` column, from
    `df["matches"].apply(lambda x: eval(x) if isinstance(x, str) else [])`.
    The Python `eval` of a string is an external effect; it is abstracted as
    the parameter `ef`.  Non-string cells (lists included) become `[]`. -/
def normMatches (ef : String → List MatchObj) : MCell → List MatchObj
  | MCell.str s => ef s
  | MCell.lst _ => []
  | MCell.na => []

/-- Normalisation of a list-or-NaN column, from
    `df[c].apply(lambda x: x if isinstance(x, list) else [])`. -/
def normList : LCell → List String
  | LCell.lst l => l
  | LCell.na => []

/-- The per-paper statistics record collected in `per_paper`
    (`doi/arxiv_id`, `k_i`, `TP_i`, `FP_i`, `FN_i`). -/
structure PaperStat where
  pid : Nat
  k_i : Nat
  TP_i : Nat
  FP_i : Int
  FN_i : Int
deriving DecidableEq, Repr

/-- Per-paper counts of `compute_all_metrics` steps 2 and 3:
    `k_i = len(error_annotation)`,
    `TP_i = max(len(matches), len(match_descriptions))` after normalisation,
    `FP_i = len(errors) - TP_i`, `FN_i = k_i - TP_i` (no clamping). -/
def paperStat (ef : String → List MatchObj) (r : MetricRow) : PaperStat :=
  let m := normMatches ef r.matchesCol
  let md := normList r.match_descriptions
  let errs := normList r.errors
  let k := r.error_annotations.length
  let tp := max m.length md.length
  ⟨r.pid, k, tp, (errs.length : Int) - (tp : Int), (k : Int) - (tp : Int)⟩

/-- The metrics record returned by `compute_all_metrics`. -/
structure Metrics where
  N : Nat
  precision_micro : ℚ
  recall_micro : ℚ
  precision_macro_avg : ℚ
  recall_macro_avg : ℚ
  PPR : ℚ
  per_paper : List PaperStat
deriving DecidableEq, Repr

/-- Total TP over the corpus (`df["TP_i"].sum()`), as a Python int. -/
def totalTP (ef : String → List MatchObj) (rows : List MetricRow) : Int :=
  ((rows.map (paperStat ef)).map (fun s => (s.TP_i : Int))).sum

/-- Total FP over the corpus (`df["FP_i"].sum()`). -/
def totalFP (ef : String → List MatchObj) (rows : List MetricRow) : Int :=
  ((rows.map (paperStat ef)).map PaperStat.FP_i).sum

/-- Total FN over the corpus (`df["FN_i"].sum()`). -/
def totalFN (ef : String → List MatchObj) (rows : List MetricRow) : Int :=
  ((rows.map (paperStat ef)).map PaperStat.FN_i).sum

/-- Row-level precision ratio of step 5:
    `TP/(TP+FP) if (TP+FP) > 0 else 0.0`. -/
def rowPrec (s : PaperStat) : ℚ :=
  if 0 < (s.TP_i : Int) + s.FP_i
  then (s.TP_i : ℚ) / (((s.TP_i : Int) + s.FP_i : Int) : ℚ)
  else 0

/-- Row-level recall ratio of step 5:
    `TP/(TP+FN) if (TP+FN) > 0 else 0.0`. -/
def rowRec (s : PaperStat) : ℚ :=
  if 0 < (s.TP_i : Int) + s.FN_i
  then (s.TP_i : ℚ) / (((s.TP_i : Int) + s.FN_i : Int) : ℚ)
  else 0

/-- Shallow embedding of `compute_all_metrics` (notebook cell 1).  Exact
    rational arithmetic stands in for Python float division; `pandas.mean`
    is sum divided by length. -/
def compute_all_metrics (ef : String → List MatchObj) (rows : List MetricRow) :
    Metrics :=
  let stats := rows.map (paperStat ef)
  let N := rows.length
  let TPt := totalTP ef rows
  let FPt := totalFP ef rows
  let FNt := totalFN ef rows
  let pmic : ℚ := if 0 < TPt + FPt then (TPt : ℚ) / ((TPt + FPt : Int) : ℚ) else 0
  let rmic : ℚ := if 0 < TPt + FNt then (TPt : ℚ) / ((TPt + FNt : Int) : ℚ) else 0
  let pmac : ℚ := (stats.map rowPrec).sum / (N : ℚ)
  let rmac : ℚ := (stats.map rowRec).sum / (N : ℚ)
  let perfect := stats.filter (fun s => s.TP_i = s.k_i)
  let ppr : ℚ := (perfect.length : ℚ) / (N : ℚ)
  ⟨N, pmic, rmic, pmac, rmac, ppr, stats⟩

/-- Default `MetricRow` used with `List.getD`. -/
def mrDefault : MetricRow :=
  ⟨0, false, false, LCell.na, [], MCell.na, LCell.na⟩

/-- Default `PaperStat` used with `List.getD`. -/
def psDefault : PaperStat := ⟨0, 0, 0, 0, 0⟩

/-- The structured form a well-behaved model response carries: a boolean
    error claim plus optional list fields (reviewer: `errors`; judge:
    `matches`).  Absent fields model missing/null JSON keys. -/
structure StructuredForm where
  has_error : Bool
  errorsOpt : Option (List String)
  matchesOpt : Option (List MatchObj)
deriving DecidableEq, Repr

/-- A raw model response: either text that cannot be interpreted as the
    expected structured form, or a well-formed one. -/
inductive RawResp
  | junk
  | good (f : StructuredForm)
deriving DecidableEq, Repr

/-- The dict returned by the parser; fields are optional because the
    notebook reads them with `r.get(key, default)`. -/
structure RespDict where
  parsedOpt : Option Bool
  hasErrorOpt : Option Bool
  errorsOpt : Option (List String)
  matchesOpt : Option (List MatchObj)
deriving DecidableEq, Repr

/-- Modelled from the spec: `extract_response_dict` (imported from the
    repository module `src`, whose file is not part of this snapshot).
    Per spec 4.4: if the raw response is absent or cannot be interpreted as
    the expected structured form, return `parsed = False` (downstream
    `has_error` defaults to True via `r.get`); on success, `parsed = True`,
    `has_error` is the model's claim, and absent/null list fields normalize
    to empty lists.  It is a total function: it never raises. -/
def extract_response_dict : Option RawResp → RespDict
  | none => ⟨some false, none, none, none⟩
  | some RawResp.junk => ⟨some false, none, none, none⟩
  | some (RawResp.good f) =>
      ⟨some true, some f.has_error, some (f.errorsOpt.getD []),
        some (f.matchesOpt.getD [])⟩

/-- One run of `for attempt in attempts: try ... break` — returns the first
    successful result, `none` if every listed attempt raises. -/
def attemptLoop (f : Nat → Option RawResp) : List Nat → Option RawResp
  | [] => none
  | a :: rest =>
      match f a with
      | some r => some r
      | none => attemptLoop f rest

/-- The reviewer completion call with its retry loop
    (`for attempt in range(1, 6)`): at most 5 attempts; after the 5th
    failure the recorded response is `None`. -/
def reviewerCall (f : Nat → Option RawResp) : Option RawResp :=
  attemptLoop f [1, 2, 3, 4, 5]

/-- The sequential reviewer stage over `n` papers: paper `i`'s attempts are
    `oracle i`; one response slot is recorded per paper, in order, so no
    single paper's failure aborts the batch. -/
def runReviewer (oracle : Nat → Nat → Option RawResp) (n : Nat) :
    List (Option RawResp) :=
  (List.range n).map fun i => reviewerCall (oracle i)

/-- A normalized dataset row (`flat_orig_df`): one row per paper with the
    ground-truth annotation lists (`error_location`, `error_annotation`). -/
structure FlatRow where
  pid : Nat
  error_locations : List String
  error_annotations : List String
deriving DecidableEq, Repr

/-- A row of `resp_df` after the reviewer stage and the (inner, one-to-one)
    merge with `flat_orig_df`. -/
structure RespRow where
  pid : Nat
  parsed : Bool
  is_error : Bool
  errors : List String
  error_locations : List String
  error_annotations : List String
deriving DecidableEq, Repr

/-- Construction of `resp_df` from the parsed reviewer results:
    `parsed = r.get("parsed", False)`, `is_error = bool(r.get("has_error",
    True))`, `errors = r.get("errors", [])`, then the merge with the
    dataset row of the same paper. -/
def buildRespRows (papers : List FlatRow) (dicts : List RespDict) :
    List RespRow :=
  (papers.zip dicts).map fun pd =>
    ⟨pd.1.pid, pd.2.parsedOpt.getD false, pd.2.hasErrorOpt.getD true,
      pd.2.errorsOpt.getD [], pd.1.error_locations, pd.1.error_annotations⟩

/-- `error_cases = resp_df.loc[resp_df["parsed"] & resp_df["is_error"], :]`. -/
def errorCases (rows : List RespRow) : List RespRow :=
  rows.filter fun r => r.parsed && r.is_error

/-- The judge prompt payload: ground-truth annotations as
    (location, description) pairs zipped from the two parallel lists, plus
    the reviewer's predictions. -/
structure JudgePrompt where
  ann_pairs : List (String × String)
  predictions : List String
deriving DecidableEq, Repr

/-- Builds the judge prompt payload for one error case. -/
def judgePrompt (r : RespRow) : JudgePrompt :=
  ⟨r.error_locations.zip r.error_annotations, r.errors⟩

/-- One record assembled from a judge response:
    `matches = res.get("matches", [])` and
    `match_descriptions = [m.get("description", "") for m in matches]`. -/
structure JudgeRec where
  pid : Nat
  jmatches : List MatchObj
  match_descriptions : List String
deriving DecidableEq, Repr

/-- Assembly of `judge_df` records — transcribed exactly from the notebook:
    `for doi, res in zip(resp_df["doi/arxiv_id"], parsed_results)`.  Note the
    zip runs over ALL of `resp_df`, not over the judged `error_cases`; the
    zip truncates at the shorter list. -/
def judgeRecords (rows : List RespRow) (judged : List RespDict) :
    List JudgeRec :=
  ((rows.map RespRow.pid).zip judged).map fun dr =>
    let ms := dr.2.matchesOpt.getD []
    ⟨dr.1, ms, ms.map fun m => m.descriptionOpt.getD ""⟩

/-- `resp_df.merge(judge_df, on="doi/arxiv_id", how="left")` for frames
    whose key columns are duplicate-free (the pipeline's are): a row keeps
    its fields and gains the judge fields of the first matching record, or
    NaN cells when no record matches. -/
def mergeJudge (rows : List RespRow) (recs : List JudgeRec) :
    List MetricRow :=
  rows.map fun r =>
    match recs.find? (fun j => j.pid = r.pid) with
    | some j =>
        ⟨r.pid, r.parsed, r.is_error, LCell.lst r.errors,
          r.error_annotations, MCell.lst j.jmatches,
          LCell.lst j.match_descriptions⟩
    | none =>
        ⟨r.pid, r.parsed, r.is_error, LCell.lst r.errors,
          r.error_annotations, MCell.na, LCell.na⟩

/-- The whole evaluation pipeline of notebook cell 3, from the normalized
    dataset to the metrics: reviewer stage with retries, parse, error-case
    filter, judge prompts, positional judge batch (`judge` maps a prompt to
    that slot's raw response), judge-record assembly, left merge, and
    `compute_all_metrics`.  Returns the metrics and the merged table. -/
def runPipeline (ef : String → List MatchObj) (papers : List FlatRow)
    (oracle : Nat → Nat → Option RawResp)
    (judge : JudgePrompt → Option RawResp) : Metrics × List MetricRow :=
  let raws := runReviewer oracle papers.length
  let dicts := raws.map extract_response_dict
  let rows := buildRespRows papers dicts
  let prompts := (errorCases rows).map judgePrompt
  let judged := (prompts.map judge).map extract_response_dict
  let recs := judgeRecords rows judged
  let merged := mergeJudge rows recs
  (compute_all_metrics ef merged, merged)

/-- A raw-dataset cell for the record normalizer: either a scalar (string)
    or a list of cells, mirroring what pandas stores after a `list`
    aggregation. -/
inductive Cell
  | s (v : String)
  | l (vs : List Cell)

/-- A raw dataset row for the record normalizer.  `error_ann` models the
    `error_annotation` column; `paper_content` stands for all the
    non-list-valued columns aggregated with `first`. -/
structure ARow where
  pid : Nat
  paper_category : Cell
  error_location : Cell
  error_ann : Cell
  paper_content : Cell

/-- Default `ARow` (only used as the `headD` fallback on groups, which are
    never empty because keys come from the table itself). -/
def defaultARow : ARow := ⟨0, Cell.s "", Cell.s "", Cell.s "", Cell.s ""⟩

/-- Aggregation of one group: list-valued columns collect the group's cells
    into a list (in source order); other columns take the first value. -/
def aggGroup (k : Nat) (g : List ARow) : ARow :=
  ⟨k, Cell.l (g.map ARow.paper_category), Cell.l (g.map ARow.error_location),
    Cell.l (g.map ARow.error_ann), (g.headD defaultARow).paper_content⟩

/-- The group keys of `groupby('doi/arxiv_id')`: distinct identifiers,
    sorted (pandas' default `sort=True`). -/
def sortedKeys (t : List ARow) : List Nat :=
  List.insertionSort (fun a b => a ≤ b) (t.map ARow.pid).dedup

/-- The record normalizer (`orig_df.groupby('doi/arxiv_id',
    as_index=False).agg(agg_dict)`): one output row per identifier, in
    sorted key order. -/
def normalizeRecords (t : List ARow) : List ARow :=
  (sortedKeys t).map fun k => aggGroup k (t.filter fun r => r.pid = k)

/-- Wrapping of a row's list-valued columns into singleton lists — what one
    more normalizer pass does to an already-normalized row. -/
def wrapListCols (r : ARow) : ARow :=
  ⟨r.pid, Cell.l [r.paper_category], Cell.l [r.error_location],
    Cell.l [r.error_ann], r.paper_content⟩

/-- A two-paper corpus: paper 0 and paper 1, one ground-truth annotation
    each. -/
def cxPapers : List FlatRow := [⟨0, ["l0"], ["a0"]⟩, ⟨1, ["l1"], ["a1"]⟩]

/-- Reviewer oracle: paper 0 parses with no error claimed; paper 1 parses
    claiming one error. -/
def cxOracleA : Nat → Nat → Option RawResp := fun i _ =>
  if i = 0 then some (RawResp.good ⟨false, some [], none⟩)
  else some (RawResp.good ⟨true, some ["e1"], none⟩)

/-- Reviewer oracle: every attempt for paper 0 raises (so all 5 retries are
    exhausted); paper 1 parses claiming one error. -/
def cxOracleB : Nat → Nat → Option RawResp := fun i _ =>
  if i = 0 then none
  else some (RawResp.good ⟨true, some ["e1"], none⟩)

/-- Judge oracle: answers the prompt whose predictions are `["e1"]` (paper
    1's prompt) with one match described "d-from-1"; any other prompt gets a
    match described "other". -/
def cxJudge : JudgePrompt → Option RawResp := fun p =>
  if p.predictions = ["e1"]
  then some (RawResp.good ⟨true, none, some [⟨some "d-from-1"⟩]⟩)
  else some (RawResp.good ⟨true, none, some [⟨some "other"⟩]⟩)

/-- Single-row raw table, already one row per identifier. -/
def cxTable : List ARow := [⟨0, Cell.s "c", Cell.s "l", Cell.s "a", Cell.s "p"⟩]

/-- Two-row raw table with distinct, strictly sorted identifiers. -/
def cxTable2 : List ARow :=
  [⟨0, Cell.s "c0", Cell.s "l0", Cell.s "a0", Cell.s "p0"⟩,
   ⟨1, Cell.s "c1", Cell.s "l1", Cell.s "a1", Cell.s "p1"⟩]

/-- Reviewer oracle for the retry-loop witness: paper 0 always raises;
    paper 1 raises on attempts 1 and 2 and succeeds on attempt 3. -/
def cxOracleC : Nat → Nat → Option RawResp := fun i a =>
  if i = 0 then none
  else if a ≤ 2 then none else some RawResp.junk

/-- A judged corpus row whose matches cell is an actual list, as the
    pipeline's judge stage stores it. -/
def cxRowList : MetricRow :=
  ⟨7, true, true, LCell.lst ["e1", "e2"], ["a1"],
    MCell.lst [⟨some "m1"⟩], LCell.lst ["d1", "d2"]⟩

/-- A small judged corpus used by several witnesses: paper 5 with two
    ground-truth errors, three predictions and two confirmed matches;
    paper 6 with one ground-truth error and a no-error review. -/
def cxRows : List MetricRow :=
  [⟨5, true, true, LCell.lst ["p1", "p2", "p3"], ["g1", "g2"], MCell.na,
     LCell.lst ["d1", "d2"]⟩,
   ⟨6, true, false, LCell.lst [], ["g1"], MCell.na, LCell.na⟩]

/-- A one-row judged corpus on which the judge over-counts: one prediction
    but two match descriptions, so `FP = -1` and both micro ratios exceed 1. -/
def cxRowsOver : List MetricRow :=
  [⟨9, true, true, LCell.lst ["p1"], ["g1"], MCell.na,
     LCell.lst ["d1", "d2"]⟩]

/-- The i-th row of a judged corpus (default row when out of range). -/
def rowAt (rows : List MetricRow) (i : Nat) : MetricRow := rows.getD i mrDefault

/-- The i-th per-paper statistics record computed by the metrics
    aggregator. -/
def statAt (ef : String → List MatchObj) (rows : List MetricRow) (i : Nat) :
    PaperStat :=
  (compute_all_metrics ef rows).per_paper.getD i psDefault

/-- Replaces a row's predicted-errors cell, leaving every other column
    unchanged. -/
def updateErrors (g : LCell → LCell) (r : MetricRow) : MetricRow :=
  ⟨r.pid, r.parsed, r.is_error, g r.errors, r.error_annotations, r.matchesCol,
    r.match_descriptions⟩

/-- A paper's own precision as the spec words it: `TP_i/(TP_i+FP_i)`, defined
    as 0 when the denominator is 0. -/
def specPrecRatio (s : PaperStat) : ℚ :=
  if (s.TP_i : Int) + s.FP_i = 0 then 0
  else (s.TP_i : ℚ) / (((s.TP_i : Int) + s.FP_i : Int) : ℚ)

/-- A paper's own recall as the spec words it: `TP_i/(TP_i+FN_i)`, defined
    as 0 when the denominator is 0. -/
def specRecRatio (s : PaperStat) : ℚ :=
  if (s.TP_i : Int) + s.FN_i = 0 then 0
  else (s.TP_i : ℚ) / (((s.TP_i : Int) + s.FN_i : Int) : ℚ)

end SPOT

namespace SPOT

/-- Indexing a mapped list: the i-th element of `l.map f` is `f` of the
    i-th element of `l`. -/
theorem aux_getD_map {α β : Type} (f : α → β) (l : List α) (i : Nat)
    (hi : i < l.length) (d : α) (e : β) :
    (l.map f).getD i e = f (l.getD i d) := by
  rw [List.getD_eq_getElem?_getD, List.getD_eq_getElem?_getD,
    List.getElem?_map, List.getElem?_eq_getElem hi]
  rfl

/-- Per paper, `TP_i + FP_i` is the predicted-error count. -/
theorem aux_tp_fp (ef : String → List MatchObj) (r : MetricRow) :
    ((paperStat ef r).TP_i : Int) + (paperStat ef r).FP_i
      = ((normList r.errors).length : Int) := by
  simp [paperStat]

/-- Per paper, `TP_i + FN_i` is the ground-truth count `k_i`. -/
theorem aux_tp_fn (ef : String → List MatchObj) (r : MetricRow) :
    ((paperStat ef r).TP_i : Int) + (paperStat ef r).FN_i
      = (r.error_annotations.length : Int) := by
  simp [paperStat]

/-- The micro precision denominator is the total predicted-error count. -/
theorem aux_denom_prec (ef : String → List MatchObj) (rows : List MetricRow) :
    totalTP ef rows + totalFP ef rows
      = (rows.map fun r => ((normList r.errors).length : Int)).sum := by
  induction rows with
  | nil => simp [totalTP, totalFP]
  | cons a t ih =>
      simp only [totalTP, totalFP, List.map_cons, List.sum_cons] at ih ⊢
      have h := aux_tp_fp ef a
      omega

/-- The micro recall denominator is the total ground-truth count. -/
theorem aux_denom_rec (ef : String → List MatchObj) (rows : List MetricRow) :
    totalTP ef rows + totalFN ef rows
      = (rows.map fun r => (r.error_annotations.length : Int)).sum := by
  induction rows with
  | nil => simp [totalTP, totalFN]
  | cons a t ih =>
      simp only [totalTP, totalFN, List.map_cons, List.sum_cons] at ih ⊢
      have h := aux_tp_fn ef a
      omega

/-- The total TP count is nonnegative. -/
theorem aux_totalTP_nonneg (ef : String → List MatchObj)
    (rows : List MetricRow) : 0 ≤ totalTP ef rows := by
  apply List.sum_nonneg
  intro x hx
  rcases List.mem_map.mp hx with ⟨s, _, rfl⟩
  exact Int.natCast_nonneg s.TP_i

/-- Both micro denominators are nonnegative. -/
theorem aux_denom_prec_nonneg (ef : String → List MatchObj)
    (rows : List MetricRow) : 0 ≤ totalTP ef rows + totalFP ef rows := by
  rw [aux_denom_prec]
  apply List.sum_nonneg
  intro x hx
  rcases List.mem_map.mp hx with ⟨r, _, rfl⟩
  exact Int.natCast_nonneg (normList r.errors).length

/-- The micro recall denominator is nonnegative. -/
theorem aux_denom_rec_nonneg (ef : String → List MatchObj)
    (rows : List MetricRow) : 0 ≤ totalTP ef rows + totalFN ef rows := by
  rw [aux_denom_rec]
  apply List.sum_nonneg
  intro x hx
  rcases List.mem_map.mp hx with ⟨r, _, rfl⟩
  exact Int.natCast_nonneg r.error_annotations.length

/-- Filtering a mapped list. -/
theorem aux_filter_map {α β : Type} (f : α → β) (p : β → Bool) :
    ∀ l : List α, (l.map f).filter p = (l.filter fun a => p (f a)).map f := by
  intro l
  induction l with
  | nil => rfl
  | cons a t ih =>
      by_cases h : p (f a) = true
      · simp [List.filter_cons, h, ih]
      · simp [List.filter_cons, h, ih]

/-- C2: for every paper i the metrics aggregator computes
    `TP_i = max(len(matches), len(match_descriptions))` (after the column
    normalisation), `FP_i = (predicted error count) - TP_i` with no
    clamping, and `FN_i = k_i - TP_i` with `k_i` the ground-truth count;
    hence `TP_i + FP_i` is the predicted error count and `TP_i + FN_i` is
    `k_i`. -/
theorem spot_c2_per_paper_counts (ef : String → List MatchObj)
    (rows : List MetricRow) :
    (compute_all_metrics ef rows).per_paper = rows.map (paperStat ef)
    ∧ ∀ i, i < rows.length →
        (statAt ef rows i).TP_i
            = max (normMatches ef (rowAt rows i).matchesCol).length
                (normList (rowAt rows i).match_descriptions).length
        ∧ (statAt ef rows i).FP_i
            = ((normList (rowAt rows i).errors).length : Int)
                - ((statAt ef rows i).TP_i : Int)
        ∧ (statAt ef rows i).FN_i
            = ((rowAt rows i).error_annotations.length : Int)
                - ((statAt ef rows i).TP_i : Int)
        ∧ ((statAt ef rows i).TP_i : Int) + (statAt ef rows i).FP_i
            = ((normList (rowAt rows i).errors).length : Int)
        ∧ ((statAt ef rows i).TP_i : Int) + (statAt ef rows i).FN_i
            = ((rowAt rows i).error_annotations.length : Int) := by
  refine ⟨rfl, fun i hi => ?_⟩
  have hs : statAt ef rows i = paperStat ef (rowAt rows i) := by
    unfold statAt rowAt
    exact aux_getD_map (paperStat ef) rows i hi mrDefault psDefault
  rw [hs]
  exact ⟨rfl, rfl, rfl, aux_tp_fp ef (rowAt rows i), aux_tp_fn ef (rowAt rows i)⟩

/-- Witness for C2 at a concrete corpus; the judge over-counts there, so
    `FP_0 = -1`, exhibiting the absence of clamping. -/
theorem spot_c2_witness :
    0 < cxRowsOver.length
    ∧ (statAt (fun _ => []) cxRowsOver 0).TP_i
        = max (normMatches (fun _ => []) (rowAt cxRowsOver 0).matchesCol).length
            (normList (rowAt cxRowsOver 0).match_descriptions).length
    ∧ (statAt (fun _ => []) cxRowsOver 0).FP_i = -1 := by
  have h := spot_c2_per_paper_counts (fun _ => []) cxRowsOver
  exact ⟨by decide, (h.2 0 (by decide)).1, by decide⟩

/-- C3 as stated is false: with one prediction, two judge-confirmed match
    descriptions and one ground-truth annotation, both micro precision and
    micro recall evaluate to 2, outside `[0,1]`. -/
theorem spot_c3_counterexample :
    1 < (compute_all_metrics (fun _ => []) cxRowsOver).precision_micro
    ∧ 1 < (compute_all_metrics (fun _ => []) cxRowsOver).recall_micro := by
  constructor <;>
    norm_num [compute_all_metrics, totalTP, totalFP, totalFN, paperStat,
      normMatches, normList, cxRowsOver]

/-- C3 amended: micro precision equals `ΣTP/Σ(TP+FP)` and micro recall
    equals `ΣTP/Σ(TP+FN)` (with value 0 on a zero denominator), and each
    lies in `[0,1]` provided no paper's FP (resp. FN) count is negative. -/
theorem spot_c3_micro (ef : String → List MatchObj) (rows : List MetricRow) :
    (compute_all_metrics ef rows).precision_micro
        = (totalTP ef rows : ℚ) / ((totalTP ef rows + totalFP ef rows : Int) : ℚ)
    ∧ (compute_all_metrics ef rows).recall_micro
        = (totalTP ef rows : ℚ) / ((totalTP ef rows + totalFN ef rows : Int) : ℚ)
    ∧ (totalTP ef rows + totalFP ef rows = 0 →
        (compute_all_metrics ef rows).precision_micro = 0)
    ∧ (totalTP ef rows + totalFN ef rows = 0 →
        (compute_all_metrics ef rows).recall_micro = 0)
    ∧ ((∀ r ∈ rows, 0 ≤ (paperStat ef r).FP_i) →
        0 ≤ (compute_all_metrics ef rows).precision_micro
        ∧ (compute_all_metrics ef rows).precision_micro ≤ 1)
    ∧ ((∀ r ∈ rows, 0 ≤ (paperStat ef r).FN_i) →
        0 ≤ (compute_all_metrics ef rows).recall_micro
        ∧ (compute_all_metrics ef rows).recall_micro ≤ 1) := by
  have hpm : (compute_all_metrics ef rows).precision_micro
      = if 0 < totalTP ef rows + totalFP ef rows
        then (totalTP ef rows : ℚ) / ((totalTP ef rows + totalFP ef rows : Int) : ℚ)
        else 0 := rfl
  have hrm : (compute_all_metrics ef rows).recall_micro
      = if 0 < totalTP ef rows + totalFN ef rows
        then (totalTP ef rows : ℚ) / ((totalTP ef rows + totalFN ef rows : Int) : ℚ)
        else 0 := rfl
  have hdp := aux_denom_prec_nonneg ef rows
  have hdr := aux_denom_rec_nonneg ef rows
  have htp := aux_totalTP_nonneg ef rows
  have heqp : (compute_all_metrics ef rows).precision_micro
      = (totalTP ef rows : ℚ) / ((totalTP ef rows + totalFP ef rows : Int) : ℚ) := by
    rw [hpm]
    rcases lt_or_eq_of_le hdp with h | h
    · rw [if_pos h]
    · rw [if_neg (by omega), ← h]
      norm_num
  have heqr : (compute_all_metrics ef rows).recall_micro
      = (totalTP ef rows : ℚ) / ((totalTP ef rows + totalFN ef rows : Int) : ℚ) := by
    rw [hrm]
    rcases lt_or_eq_of_le hdr with h | h
    · rw [if_pos h]
    · rw [if_neg (by omega), ← h]
      norm_num
  have hFPsum : (∀ r ∈ rows, 0 ≤ (paperStat ef r).FP_i) → 0 ≤ totalFP ef rows := by
    intro hall
    apply List.sum_nonneg
    intro x hx
    rcases List.mem_map.mp hx with ⟨s, hs, rfl⟩
    rcases List.mem_map.mp hs with ⟨r, hr, rfl⟩
    exact hall r hr
  have hFNsum : (∀ r ∈ rows, 0 ≤ (paperStat ef r).FN_i) → 0 ≤ totalFN ef rows := by
    intro hall
    apply List.sum_nonneg
    intro x hx
    rcases List.mem_map.mp hx with ⟨s, hs, rfl⟩
    rcases List.mem_map.mp hs with ⟨r, hr, rfl⟩
    exact hall r hr
  refine ⟨heqp, heqr, ?_, ?_, ?_, ?_⟩
  · intro h0
    rw [hpm, if_neg (by omega)]
  · intro h0
    rw [hrm, if_neg (by omega)]
  · intro hall
    have hfp := hFPsum hall
    rw [heqp]
    constructor
    · apply div_nonneg
      · exact_mod_cast htp
      · exact_mod_cast hdp
    · rcases lt_or_eq_of_le hdp with h | h
      · rw [div_le_one (by exact_mod_cast h)]
        have : totalTP ef rows ≤ totalTP ef rows + totalFP ef rows := by omega
        exact_mod_cast this
      · rw [← h]
        norm_num
  · intro hall
    have hfn := hFNsum hall
    rw [heqr]
    constructor
    · apply div_nonneg
      · exact_mod_cast htp
      · exact_mod_cast hdr
    · rcases lt_or_eq_of_le hdr with h | h
      · rw [div_le_one (by exact_mod_cast h)]
        have : totalTP ef rows ≤ totalTP ef rows + totalFN ef rows := by omega
        exact_mod_cast this
      · rw [← h]
        norm_num

/-- Witness for the amended C3 at a concrete corpus where no FP/FN count is
    negative: both micro values are within `[0,1]`. -/
theorem spot_c3_micro_witness :
    (∀ r ∈ cxRows, 0 ≤ (paperStat (fun _ => []) r).FP_i)
    ∧ 0 ≤ (compute_all_metrics (fun _ => []) cxRows).precision_micro
    ∧ (compute_all_metrics (fun _ => []) cxRows).precision_micro ≤ 1
    ∧ (∀ r ∈ cxRows, 0 ≤ (paperStat (fun _ => []) r).FN_i)
    ∧ 0 ≤ (compute_all_metrics (fun _ => []) cxRows).recall_micro
    ∧ (compute_all_metrics (fun _ => []) cxRows).recall_micro ≤ 1 := by
  have h := spot_c3_micro (fun _ => []) cxRows
  refine ⟨by decide, (h.2.2.2.2.1 (by decide)).1, (h.2.2.2.2.1 (by decide)).2,
    by decide, (h.2.2.2.2.2 (by decide)).1, (h.2.2.2.2.2 (by decide)).2⟩

/-- C4: PPR is the fraction of papers with `TP_i == k_i`; a paper with
    `k_i = 0` and `TP_i = 0` satisfies the perfect predicate; and replacing
    any paper's predicted-errors cell (hence its false positives) leaves
    PPR unchanged, so extra unmatched predictions never disqualify a paper. -/
theorem spot_c4_ppr (ef : String → List MatchObj) (rows : List MetricRow)
    (h : rows ≠ []) :
    (compute_all_metrics ef rows).PPR
        = (((rows.filter fun r =>
              (paperStat ef r).TP_i = (paperStat ef r).k_i).length : ℚ))
            / (rows.length : ℚ)
    ∧ (∀ r : MetricRow, (paperStat ef r).k_i = 0 → (paperStat ef r).TP_i = 0 →
        (paperStat ef r).TP_i = (paperStat ef r).k_i)
    ∧ ∀ g : LCell → LCell,
        (compute_all_metrics ef (rows.map (updateErrors g))).PPR
          = (compute_all_metrics ef rows).PPR := by
  have hfil : ∀ t : List MetricRow,
      ((t.map (paperStat ef)).filter fun s => s.TP_i = s.k_i)
        = (t.filter fun r =>
            (paperStat ef r).TP_i = (paperStat ef r).k_i).map (paperStat ef) :=
    fun t => aux_filter_map (paperStat ef) (fun s => s.TP_i = s.k_i) t
  have hppr : ∀ t : List MetricRow, (compute_all_metrics ef t).PPR
      = (((t.filter fun r =>
            (paperStat ef r).TP_i = (paperStat ef r).k_i).length : ℚ))
          / (t.length : ℚ) := by
    intro t
    show ((((t.map (paperStat ef)).filter fun s => s.TP_i = s.k_i).length : ℚ))
        / (t.length : ℚ) = _
    rw [hfil t, List.length_map]
  refine ⟨hppr rows, fun r h0 h1 => by rw [h0, h1], fun g => ?_⟩
  rw [hppr rows, hppr (rows.map (updateErrors g))]
  have hcong : (rows.map (updateErrors g)).filter
        (fun r => (paperStat ef r).TP_i = (paperStat ef r).k_i)
      = (rows.filter fun r =>
          (paperStat ef r).TP_i = (paperStat ef r).k_i).map (updateErrors g) := by
    rw [aux_filter_map (updateErrors g)
      (fun r => (paperStat ef r).TP_i = (paperStat ef r).k_i) rows]
    rfl
  rw [hcong, List.length_map, List.length_map]

/-- Witness for C4: PPR on the concrete two-paper corpus, and invariance of
    PPR under adding four extra unmatched predictions to every paper. -/
theorem spot_c4_witness :
    cxRows ≠ []
    ∧ (compute_all_metrics (fun _ => []) cxRows).PPR
        = (((cxRows.filter fun r =>
              (paperStat (fun _ => []) r).TP_i
                = (paperStat (fun _ => []) r).k_i).length : ℚ))
            / (cxRows.length : ℚ)
    ∧ (compute_all_metrics (fun _ => [])
          (cxRows.map (updateErrors fun _ =>
            LCell.lst ["x1", "x2", "x3", "x4"]))).PPR
        = (compute_all_metrics (fun _ => []) cxRows).PPR := by
  have h := spot_c4_ppr (fun _ => []) cxRows (by decide)
  exact ⟨by decide, h.1, h.2.2 _⟩

/-- C9: macro precision and recall are the unweighted means over all papers
    of each paper's own ratio, the ratio being 0 on a zero denominator; the
    list of per-paper ratios has one entry per paper, so none is excluded. -/
theorem spot_c9_macro (ef : String → List MatchObj) (rows : List MetricRow)
    (h : rows ≠ []) :
    (compute_all_metrics ef rows).precision_macro_avg
        = (rows.map fun r => specPrecRatio (paperStat ef r)).sum
            / (rows.length : ℚ)
    ∧ (compute_all_metrics ef rows).recall_macro_avg
        = (rows.map fun r => specRecRatio (paperStat ef r)).sum
            / (rows.length : ℚ)
    ∧ (rows.map fun r => specPrecRatio (paperStat ef r)).length = rows.length := by
  have hprec : ∀ r : MetricRow, rowPrec (paperStat ef r)
      = specPrecRatio (paperStat ef r) := by
    intro r
    have hd := aux_tp_fp ef r
    unfold rowPrec specPrecRatio
    rcases Nat.eq_zero_or_pos (normList r.errors).length with h0 | h0
    · rw [if_neg (by omega), if_pos (by omega)]
    · rw [if_pos (by omega), if_neg (by omega)]
  have hrec : ∀ r : MetricRow, rowRec (paperStat ef r)
      = specRecRatio (paperStat ef r) := by
    intro r
    have hd := aux_tp_fn ef r
    unfold rowRec specRecRatio
    rcases Nat.eq_zero_or_pos r.error_annotations.length with h0 | h0
    · rw [if_neg (by omega), if_pos (by omega)]
    · rw [if_pos (by omega), if_neg (by omega)]
  refine ⟨?_, ?_, by rw [List.length_map]⟩
  · show ((rows.map (paperStat ef)).map rowPrec).sum / (rows.length : ℚ) = _
    rw [List.map_map]
    congr 1
    exact congrArg List.sum (List.map_congr_left fun r _ => hprec r)
  · show ((rows.map (paperStat ef)).map rowRec).sum / (rows.length : ℚ) = _
    rw [List.map_map]
    congr 1
    exact congrArg List.sum (List.map_congr_left fun r _ => hrec r)

/-- Witness for C9 at the concrete two-paper corpus. -/
theorem spot_c9_witness :
    cxRows ≠ []
    ∧ (compute_all_metrics (fun _ => []) cxRows).precision_macro_avg
        = (cxRows.map fun r => specPrecRatio (paperStat (fun _ => []) r)).sum
            / (cxRows.length : ℚ)
    ∧ (compute_all_metrics (fun _ => []) cxRows).recall_macro_avg
        = (cxRows.map fun r => specRecRatio (paperStat (fun _ => []) r)).sum
            / (cxRows.length : ℚ) := by
  have h := spot_c9_macro (fun _ => []) cxRows (by decide)
  exact ⟨by decide, h.1, h.2.1⟩

/-- C6: the reviewer stage records exactly one response slot per paper (no
    paper's failure aborts the batch); a paper whose five attempts all fail
    gets `None`; the first successful attempt's result is recorded; and the
    outcome depends only on attempts 1 through 5, so the call is attempted
    at most 5 times. -/
theorem spot_c6_retry (oracle : Nat → Nat → Option RawResp) (n : Nat) :
    (runReviewer oracle n).length = n
    ∧ (∀ i, i < n → (∀ a, 1 ≤ a → a ≤ 5 → oracle i a = none) →
        (runReviewer oracle n).getD i (some RawResp.junk) = none)
    ∧ (∀ i, i < n → ∀ k r, 1 ≤ k → k ≤ 5 → oracle i k = some r →
        (∀ j, 1 ≤ j → j < k → oracle i j = none) →
        (runReviewer oracle n).getD i none = some r)
    ∧ (∀ g : Nat → Nat → Option RawResp,
        (∀ i a, 1 ≤ a → a ≤ 5 → oracle i a = g i a) →
        runReviewer oracle n = runReviewer g n) := by
  have hidx : ∀ (d : Option RawResp) i, i < n →
      (runReviewer oracle n).getD i d = reviewerCall (oracle i) := by
    intro d i hi
    unfold runReviewer
    rw [aux_getD_map (fun i => reviewerCall (oracle i)) (List.range n) i
      (by simpa using hi) 0 d]
    congr 1
    rw [List.getD_eq_getElem?_getD, List.getElem?_range (by simpa using hi)]
    rfl
  refine ⟨by simp [runReviewer], ?_, ?_, ?_⟩
  · intro i hi hall
    rw [hidx _ i hi]
    simp [reviewerCall, attemptLoop, hall 1 (by omega) (by omega),
      hall 2 (by omega) (by omega), hall 3 (by omega) (by omega),
      hall 4 (by omega) (by omega), hall 5 (by omega) (by omega)]
  · intro i hi k r h1 h5 hk hbefore
    rw [hidx _ i hi]
    interval_cases k
    · simp [reviewerCall, attemptLoop, hk]
    · simp [reviewerCall, attemptLoop, hbefore 1 (by omega) (by omega), hk]
    · simp [reviewerCall, attemptLoop, hbefore 1 (by omega) (by omega),
        hbefore 2 (by omega) (by omega), hk]
    · simp [reviewerCall, attemptLoop, hbefore 1 (by omega) (by omega),
        hbefore 2 (by omega) (by omega), hbefore 3 (by omega) (by omega), hk]
    · simp [reviewerCall, attemptLoop, hbefore 1 (by omega) (by omega),
        hbefore 2 (by omega) (by omega), hbefore 3 (by omega) (by omega),
        hbefore 4 (by omega) (by omega), hk]
  · intro g hag
    unfold runReviewer
    apply List.map_congr_left
    intro i _
    simp [reviewerCall, attemptLoop, hag i 1 (by omega) (by omega),
      hag i 2 (by omega) (by omega), hag i 3 (by omega) (by omega),
      hag i 4 (by omega) (by omega), hag i 5 (by omega) (by omega)]

/-- Witness for C6: on the concrete attempt oracle, paper 0 (five failed
    attempts) is recorded as `None`, paper 1 gets its third attempt's
    result, and the batch still has one slot per paper. -/
theorem spot_c6_witness :
    (runReviewer cxOracleC 2).length = 2
    ∧ (runReviewer cxOracleC 2).getD 0 (some RawResp.junk) = none
    ∧ (runReviewer cxOracleC 2).getD 1 none = some RawResp.junk := by
  have h := spot_c6_retry cxOracleC 2
  refine ⟨h.1, h.2.1 0 (by decide) (fun a _ _ => rfl),
    h.2.2.1 1 (by decide) 3 RawResp.junk (by decide) (by decide) (by decide)
      (fun j h1 h3 => ?_)⟩
  interval_cases j <;> rfl

/-- C7 (parser modelled from the spec, see `extract_response_dict`): for a
    paper whose raw response is absent or whose text is not in the expected
    structured form, the constructed reviewer row records `parsed = False`,
    `is_error = True` (the conservative downstream default) and an empty
    prediction list; the parse step is a total function, so it raises
    nothing. -/
theorem spot_c7_parse_failure (p : FlatRow) (resp : Option RawResp)
    (h : resp = none ∨ resp = some RawResp.junk) :
    buildRespRows [p] [extract_response_dict resp]
      = [⟨p.pid, false, true, [], p.error_locations, p.error_annotations⟩] := by
  rcases h with h | h <;> subst h <;> rfl

/-- Witness for C7 at a concrete paper with an absent response. -/
theorem spot_c7_witness :
    (none = (none : Option RawResp) ∨ none = some RawResp.junk)
    ∧ buildRespRows [⟨3, ["L"], ["A"]⟩] [extract_response_dict none]
        = [⟨3, false, true, [], ["L"], ["A"]⟩] :=
  ⟨Or.inl rfl, spot_c7_parse_failure ⟨3, ["L"], ["A"]⟩ none (Or.inl rfl)⟩

/-- C10: the merged table's matches cells are only ever NaN or actual lists
    (the judge stage stores lists, never strings), and `compute_all_metrics`
    replaces every non-string matches value — lists included — by `[]`; so
    for every row whose matches field is a list, `TP_i` is the length of
    `match_descriptions` alone and the max-based tie-break has no effect. -/
theorem spot_c10_list_matches (ef : String → List MatchObj)
    (rows : List RespRow) (recs : List JudgeRec) :
    (∀ mr ∈ mergeJudge rows recs,
        mr.matchesCol = MCell.na ∨ ∃ l, mr.matchesCol = MCell.lst l)
    ∧ ∀ (r : MetricRow) (l : List MatchObj), r.matchesCol = MCell.lst l →
        normMatches ef r.matchesCol = []
        ∧ (paperStat ef r).TP_i = (normList r.match_descriptions).length := by
  constructor
  · intro mr hmr
    rcases List.mem_map.mp hmr with ⟨r, _, rfl⟩
    rcases hf : recs.find? (fun j => j.pid = r.pid) with _ | j
    · exact Or.inl (by simp [hf])
    · exact Or.inr ⟨j.jmatches, by simp [hf]⟩
  · intro r l hl
    refine ⟨by rw [hl]; rfl, ?_⟩
    show max (normMatches ef r.matchesCol).length
        (normList r.match_descriptions).length = _
    rw [hl]
    show max (List.length []) (normList r.match_descriptions).length = _
    rw [List.length_nil, Nat.zero_max]

/-- Witness for C10 at a concrete judged row whose matches cell is a list
    of one match object but whose description list has two entries: `TP`
    is 2, from the descriptions alone. -/
theorem spot_c10_witness :
    cxRowList.matchesCol = MCell.lst [⟨some "m1"⟩]
    ∧ normMatches (fun _ => []) cxRowList.matchesCol = []
    ∧ (paperStat (fun _ => []) cxRowList).TP_i = 2 := by
  have h := (spot_c10_list_matches (fun _ => []) [] []).2 cxRowList
    [⟨some "m1"⟩] rfl
  exact ⟨rfl, h.1, h.2.trans (by decide)⟩

/-- In a table whose identifiers are pairwise distinct, filtering by a
    row's identifier yields exactly that row. -/
theorem aux_filter_pid :
    ∀ t : List ARow, (t.map ARow.pid).Nodup →
      ∀ r ∈ t, (t.filter fun x => x.pid = r.pid) = [r] := by
  intro t
  induction t with
  | nil => intro _ r hr; exact absurd hr (List.not_mem_nil r)
  | cons a t ih =>
      intro hnd r hr
      rcases List.nodup_cons.mp hnd with ⟨hna, hnd2⟩
      rcases List.mem_cons.mp hr with rfl | hr
      · have hfe : (t.filter fun x => x.pid = r.pid) = [] := by
          apply List.filter_eq_nil_iff.mpr
          intro x hx
          simp only [decide_eq_true_eq]
          intro contra
          exact hna (contra ▸ List.mem_map_of_mem ARow.pid hx)
        simp [List.filter_cons, hfe]
      · have hne : ¬(a.pid = r.pid) := fun contra =>
          hna (contra ▸ List.mem_map_of_mem ARow.pid hr)
        simp only [List.filter_cons, decide_eq_true_eq]
        rw [if_neg hne]
        exact ih hnd2 r hr

/-- C5 as stated is false: `cxTable` has one row per identifier, yet the
    normalizer does not return it unchanged — the single row's scalar
    annotation cells are wrapped into singleton lists. -/
theorem spot_c5_counterexample :
    (cxTable.map ARow.pid).Nodup ∧ normalizeRecords cxTable ≠ cxTable := by
  refine ⟨by decide, fun h => ?_⟩
  have h0 : Cell.l [Cell.s "c"] = Cell.s "c" :=
    congrArg (fun l => (l.headD defaultARow).paper_category) h
  exact Cell.noConfusion h0

/-- C5 amended: on a table with one row per identifier (rows sorted by
    identifier, as the normalizer's own output is), re-running the
    normalizer returns the table with identifier and first-value columns
    unchanged but each list-valued cell `v` wrapped into `[v]`; it is
    therefore idempotent only on the identifier and scalar columns, not on
    the list-valued annotation columns. -/
theorem spot_c5_normalizer_wraps (t : List ARow)
    (h : (t.map ARow.pid).Sorted (fun a b => a < b)) :
    normalizeRecords t = t.map wrapListCols := by
  have hnd : (t.map ARow.pid).Nodup := h.nodup
  have hsk : sortedKeys t = t.map ARow.pid := by
    unfold sortedKeys
    rw [List.dedup_eq_self.mpr hnd]
    exact List.Sorted.insertionSort_eq (h.imp fun hab => le_of_lt hab)
  unfold normalizeRecords
  rw [hsk, List.map_map]
  apply List.map_congr_left
  intro r hr
  show aggGroup r.pid (t.filter fun x => x.pid = r.pid) = wrapListCols r
  rw [aux_filter_pid t hnd r hr]
  rfl

/-- Witness for the amended C5 at a concrete sorted two-row table. -/
theorem spot_c5_witness :
    (cxTable2.map ARow.pid).Sorted (fun a b => a < b)
    ∧ normalizeRecords cxTable2 = cxTable2.map wrapListCols :=
  ⟨by decide, spot_c5_normalizer_wraps cxTable2 (by decide)⟩

/-- C1 fails on the code: with paper 0 reviewed as error-free and paper 1
    as the only judged error case, the judge response produced from paper
    1's prompt (it carries the marker description "d-from-1" only that
    prompt receives) is attached to paper 0, which does not satisfy
    `parsed ∧ is_error`, while paper 1 — which does — gets null match
    fields.  The cause is the assembly zip running over all of `resp_df`
    instead of over the judged `error_cases`. -/
theorem spot_c1_judge_misattribution :
    ((runPipeline (fun _ => []) cxPapers cxOracleA cxJudge).2.getD 0
        mrDefault).parsed = true
    ∧ ((runPipeline (fun _ => []) cxPapers cxOracleA cxJudge).2.getD 0
        mrDefault).is_error = false
    ∧ ((runPipeline (fun _ => []) cxPapers cxOracleA cxJudge).2.getD 0
        mrDefault).match_descriptions = LCell.lst ["d-from-1"]
    ∧ ((runPipeline (fun _ => []) cxPapers cxOracleA cxJudge).2.getD 1
        mrDefault).parsed = true
    ∧ ((runPipeline (fun _ => []) cxPapers cxOracleA cxJudge).2.getD 1
        mrDefault).is_error = true
    ∧ ((runPipeline (fun _ => []) cxPapers cxOracleA cxJudge).2.getD 1
        mrDefault).matchesCol = MCell.na := by
  decide

/-- C8 fails on the code for the same reason: paper 0's reviewer call
    exhausts its five retries (response `None`), yet through the
    misaligned judge zip it receives paper 1's judge match and is scored
    `TP = 1, FP = -1, FN = 0` instead of `TP = 0, FP = 0, FN = k_0 = 1`. -/
theorem spot_c8_failed_paper_scored_nonzero :
    reviewerCall (cxOracleB 0) = none
    ∧ (runPipeline (fun _ => []) cxPapers cxOracleB cxJudge).1.per_paper.getD 0
        psDefault = ⟨0, 1, 1, -1, 0⟩ := by
  decide

end SPOT
